import Mathlib

/-
Shallow embedding of the SensorTile stream-ingestion programs:

* `Serial-Excel-Update/main.py` — the untagged-protocol CSV logger
  (`SensorLogger.process_line`, `init_csv`, `write_sample`, `run`).
* `Server/main.py` — the tagged-protocol MQTT gateway (`main`'s serial loop:
  the `'A'`/`'M'` dispatch, the time-based accel publish gate and the
  count-based mic decimation gate).

A raw line is modelled as its character list; Python `line.split(',')`
becomes `splitComma`, Python `int(str)` becomes `pyInt`, and the list
comprehension `[int(m) for m in ...]` becomes `parseAll`.  Stateful code is
explicit state passing on `LoggerState` / `GatewayState`; side effects that
matter to the claims (header writes, row writes, flushes, counter bumps,
publishes) are recorded as ghost fields of the state.  Wall-clock values
(`time.time()`, `datetime.now()`) are passed in as parameters; time instants
are modelled as integers.
-/

namespace Sensortile

/-- ASCII whitespace as stripped by Python `int(str)` around a numeral. -/
def isPySpace (c : Char) : Bool :=
  c = ' ' || c = '\t' || c = '\n' || c = '\r' || c = '\x0b' || c = '\x0c'

/-- Strip leading and trailing whitespace from a field. -/
def stripWS (cs : List Char) : List Char :=
  ((cs.dropWhile isPySpace).reverse.dropWhile isPySpace).reverse

/-- Value of a nonempty ASCII digit string. -/
def digitsVal (cs : List Char) : Nat :=
  cs.foldl (fun n c => 10 * n + (c.toNat - '0'.toNat)) 0

/-- Model of Python `int(s)`: optional surrounding whitespace, optional
sign, one or more ASCII decimal digits; anything else raises `ValueError`,
modelled as `none`.  (CPython additionally accepts underscore separators
and non-ASCII digits; no claim depends on those lexical corner cases.) -/
def pyInt (field : List Char) : Option Int :=
  match stripWS field with
  | [] => none
  | c :: rest =>
    let signed : Int × List Char :=
      if c = '-' then (-1, rest)
      else if c = '+' then (1, rest)
      else (1, c :: rest)
    if !signed.2.isEmpty && signed.2.all Char.isDigit then
      some (signed.1 * (digitsVal signed.2 : Int))
    else none

/-- Model of Python `line.split(',')`: always returns at least one field;
empty fields are kept. -/
def splitComma : List Char → List (List Char)
  | [] => [[]]
  | c :: rest =>
    if c = ',' then [] :: splitComma rest
    else
      match splitComma rest with
      | [] => [[c]]
      | f :: fs => (c :: f) :: fs

/-- Model of Python `line.startswith('#')`. -/
def startsHash : List Char → Bool
  | '#' :: _ => true
  | _ => false

/-- Model of the list comprehension `[int(m) for m in fields]`: all fields
must parse or the whole conversion raises (`none`). -/
def parseAll : List (List Char) → Option (List Int)
  | [] => some []
  | f :: fs =>
    match pyInt f, parseAll fs with
    | some v, some vs => some (v :: vs)
    | _, _ => none

/-- The decoded-frame union over the shapes both programs produce. -/
inductive Frame
  | axis (x y z : Int)
  | summary (x y z peak avg : Int)
  | wide (x y z : Int) (channels : List Int)
  | micBatch (samples : List Int)
  deriving DecidableEq

/-- Zero-pad a channel list up to the declared width of 16 (the
`while len(mic_samples) < 16: mic_samples.append(0)` loop). -/
def pad16 (l : List Int) : List Int :=
  l ++ List.replicate (16 - l.length) 0

/-- The pure decode portion of `SensorLogger.process_line`
(Serial-Excel-Update/main.py lines 143-185): which frame, if any, an
untagged line yields.  Mirrors the source exactly: comment lines and lines
with fewer than 5 fields yield nothing; 2 auxiliary fields is the reduced
(summary) shape; 8 or more auxiliary fields is the raw (wide) shape, with
only the first 16 auxiliary fields parsed and zero-padding up to 16. -/
def untaggedDecode (line : List Char) : Option Frame :=
  if startsHash line then none
  else
    let parts := splitComma line
    if parts.length < 5 then none
    else
      match pyInt (parts.getD 0 []), pyInt (parts.getD 1 []), pyInt (parts.getD 2 []) with
      | some x, some y, some z =>
        let micParts := parts.drop 3
        if micParts.length = 2 then
          match pyInt (micParts.getD 0 []), pyInt (micParts.getD 1 []) with
          | some peak, some avg => some (Frame.summary x y z peak avg)
          | _, _ => none
        else if 8 ≤ micParts.length then
          match parseAll (micParts.take 16) with
          | some mics => some (Frame.wide x y z (pad16 mics))
          | none => none
        else none
      | _, _, _ => none

/-- The logger's stream schema, Python `self.mode` (`None`/`'raw'`/`'reduced'`). -/
inductive Mode
  | raw
  | reduced
  deriving DecidableEq

/-- One CSV data row: the integer cells plus the timestamp cell. -/
def Row : Type := List Int × String

instance : DecidableEq Row := by
  unfold Row
  infer_instance

/-- CSV header columns written by `init_csv` for each mode. -/
def headersFor : Mode → List String
  | Mode.raw => ["x", "y", "z"] ++ ((List.range 16).map (fun i => "m" ++ toString (i + 1))) ++ ["timestamp"]
  | Mode.reduced => ["x", "y", "z", "mic_peak", "mic_avg", "timestamp"]

/-- State of `SensorLogger` as far as the claims observe it: the committed
mode, the header-initialization latch, and ghost counters for header
writes, rows written, samples counted and flushes forced. -/
structure LoggerState where
  mode : Option Mode
  csvInitialized : Bool
  header : Option (List String)
  headerWrites : Nat
  sampleCount : Nat
  rows : List Row
  flushes : Nat
  deriving DecidableEq

/-- `SensorLogger.__init__`: no mode, no header, zero samples. -/
def freshState : LoggerState :=
  { mode := none
    csvInitialized := false
    header := none
    headerWrites := 0
    sampleCount := 0
    rows := []
    flushes := 0 }

/-- `SensorLogger.init_csv` (lines 68-86): returns immediately if the CSV
was already initialized; otherwise writes the mode-dependent header row,
flushes, and sets the latch. -/
def init_csv (mode : Mode) (s : LoggerState) : LoggerState :=
  if s.csvInitialized then s
  else
    { s with
      header := some (headersFor mode)
      headerWrites := s.headerWrites + 1
      flushes := s.flushes + 1
      csvInitialized := true }

/-- `SensorLogger.write_sample` (lines 88-94): write one row, increment the
sample count, and force a flush whenever the count is a multiple of 500. -/
def write_sample (row : Row) (s : LoggerState) : LoggerState :=
  let s1 := { s with rows := s.rows ++ [row], sampleCount := s.sampleCount + 1 }
  if s1.sampleCount % 500 = 0 then { s1 with flushes := s1.flushes + 1 } else s1

/-- The mode-commit idiom repeated in both branches of `process_line`
(`if self.mode != m: self.mode = m; self.init_csv(m)`). -/
def commitMode (m : Mode) (s : LoggerState) : LoggerState :=
  if s.mode ≠ some m then init_csv m { s with mode := some m } else s

/-- `SensorLogger.process_line` (lines 143-185), with the timestamp taken as
a parameter.  Faithful to the source's effect order: the axis fields parse
first, then the arity dispatch commits the mode and initializes the CSV
*before* the trailing fields are parsed, so a `ValueError` in the trailing
fields (the bare `except ValueError: pass`) leaves the mode commitment and
header initialization in place while writing no row. -/
def process_line (ts : String) (line : List Char) (s : LoggerState) : LoggerState :=
  if startsHash line then s
  else
    let parts := splitComma line
    if parts.length < 5 then s
    else
      match pyInt (parts.getD 0 []), pyInt (parts.getD 1 []), pyInt (parts.getD 2 []) with
      | some x, some y, some z =>
        let micParts := parts.drop 3
        if micParts.length = 2 then
          let s1 := commitMode Mode.reduced s
          match pyInt (micParts.getD 0 []), pyInt (micParts.getD 1 []) with
          | some peak, some avg => write_sample ([x, y, z, peak, avg], ts) s1
          | _, _ => s1
        else if 8 ≤ micParts.length then
          let s1 := commitMode Mode.raw s
          match parseAll (micParts.take 16) with
          | some mics => write_sample ([x, y, z] ++ pad16 mics, ts) s1
          | none => s1
        else s
      | _, _, _ => s

/-- Append a run of decoded samples to the store, in order. -/
def appendAll (rows : List Row) (s : LoggerState) : LoggerState :=
  rows.foldl (fun st r => write_sample r st) s

/-- Teardown in `SensorLogger.run`'s `finally` block: closing the CSV file
flushes its buffered writes. -/
def closeStore (s : LoggerState) : LoggerState :=
  { s with flushes := s.flushes + 1 }

/-- State of the MQTT gateway main loop (Server/main.py lines 182-250):
the accel sample index, the mic batch counter, the last accel publish
instant, the stats dictionary, and a ghost list of published frames. -/
structure GatewayState where
  accelIdx : Nat
  micBatch : Nat
  lastAccel : Int
  statAccel : Nat
  statMic : Nat
  statErrors : Nat
  published : List Frame
  deriving DecidableEq

/-- Gateway loop entry state (`accel_idx = 0`, `mic_batch = 0`,
`last_accel_publish = 0`, all stats zero). -/
def freshGateway : GatewayState :=
  { accelIdx := 0
    micBatch := 0
    lastAccel := 0
    statAccel := 0
    statMic := 0
    statErrors := 0
    published := [] }

/-- The time-based publish gate inlined in the accel branch
(Server/main.py lines 212-220): emit iff `now - last >= interval`, and
update the last-emit instant only on a true answer. -/
def accelGateStep (interval now last : Int) : Bool × Int :=
  if interval ≤ now - last then (true, now) else (false, last)

/-- The count-based decimation gate inlined in the mic branch
(Server/main.py lines 233-243): emit iff `counter % n == 0`; the counter
increments on every candidate regardless of the answer. -/
def micGateStep (n counter : Nat) : Bool × Nat :=
  (counter % n == 0, counter + 1)

/-- The pure decode portion of the gateway loop (Server/main.py lines
202-246): dispatch on the leading tag.  `'A'` with exactly 4 fields and 3
integer trailing fields is an axis sample; `'M'` with at least one trailing
field, all integers, is a mic batch; everything else yields nothing. -/
def taggedDecode (line : List Char) : Option Frame :=
  let parts := splitComma line
  if parts.getD 0 [] = ['A'] ∧ parts.length = 4 then
    match pyInt (parts.getD 1 []), pyInt (parts.getD 2 []), pyInt (parts.getD 3 []) with
    | some x, some y, some z => some (Frame.axis x y z)
    | _, _, _ => none
  else if parts.getD 0 [] = ['M'] ∧ 1 < parts.length then
    match parseAll (parts.drop 1) with
    | some vs => some (Frame.micBatch vs)
    | none => none
  else none

/-- One iteration of the gateway serial loop for a non-empty decoded line
(Server/main.py lines 202-246), with the publish interval, the mic
decimation factor and the current clock value as parameters.  `'A'` lines
parse their 3 fields, bump `accel_idx`, and publish through the time gate;
parse failures bump the error stat.  `'M'` lines parse all trailing fields,
publish through the count gate, and bump `mic_batch`; parse failures bump
the error stat.  Anything else falls through unchanged. -/
def gatewayStep (interval : Int) (n : Nat) (now : Int) (line : List Char)
    (st : GatewayState) : GatewayState :=
  let parts := splitComma line
  if parts.getD 0 [] = ['A'] ∧ parts.length = 4 then
    match pyInt (parts.getD 1 []), pyInt (parts.getD 2 []), pyInt (parts.getD 3 []) with
    | some x, some y, some z =>
      let st1 := { st with accelIdx := st.accelIdx + 1 }
      let gate := accelGateStep interval now st1.lastAccel
      if gate.1 then
        { st1 with
          published := st1.published ++ [Frame.axis x y z]
          lastAccel := gate.2
          statAccel := st1.statAccel + 1 }
      else st1
    | _, _, _ => { st with statErrors := st.statErrors + 1 }
  else if parts.getD 0 [] = ['M'] ∧ 1 < parts.length then
    match parseAll (parts.drop 1) with
    | some vs =>
      let gate := micGateStep n st.micBatch
      let st1 :=
        if gate.1 then
          { st with
            published := st.published ++ [Frame.micBatch vs]
            statMic := st.statMic + 1 }
        else st
      { st1 with micBatch := gate.2 }
    | none => { st with statErrors := st.statErrors + 1 }
  else st

/-- The accel time gate run over a sequence of candidate publish instants,
threading the last-emit instant exactly as the loop does; returns the
instants at which the gate answered true. -/
def acceptedTimes (interval : Int) : Int → List Int → List Int
  | _, [] => []
  | last, now :: rest =>
    let gate := accelGateStep interval now last
    if gate.1 then now :: acceptedTimes interval gate.2 rest
    else acceptedTimes interval gate.2 rest

/-- The mic count gate run over a batch of consecutive candidates starting
from a given counter value; returns the counter values at which the gate
answered true. -/
def micAccepted (n : Nat) : Nat → Nat → List Nat
  | _, 0 => []
  | counter, k + 1 =>
    let gate := micGateStep n counter
    if gate.1 then counter :: micAccepted n gate.2 k
    else micAccepted n gate.2 k

/- ------------------------------------------------------------------ -/
/- Helper lemmas                                                       -/
/- ------------------------------------------------------------------ -/

theorem parseAll_length : ∀ {l : List (List Char)} {l' : List Int},
    parseAll l = some l' → l'.length = l.length := by
  intro l
  induction l with
  | nil => intro l' h; simp [parseAll] at h; simp [← h]
  | cons f fs ih =>
    intro l' h
    unfold parseAll at h
    cases hf : pyInt f <;> rw [hf] at h
    · simp at h
    · cases hfs : parseAll fs <;> rw [hfs] at h
      · simp at h
      · simp at h
        rw [← h]
        simp [ih hfs]

theorem parseAll_cons_some {f : List Char} {fs : List (List Char)} {l : List Int}
    (h : parseAll (f :: fs) = some l) :
    ∃ v vs, pyInt f = some v ∧ parseAll fs = some vs ∧ l = v :: vs := by
  unfold parseAll at h
  cases hf : pyInt f <;> rw [hf] at h
  · simp at h
  · cases hfs : parseAll fs <;> rw [hfs] at h
    · simp at h
    · simp at h
      exact ⟨_, _, rfl, rfl, h.symm⟩

theorem parseAll_take : ∀ {l : List (List Char)} {l' : List Int},
    parseAll l = some l' → ∀ n, parseAll (l.take n) = some (l'.take n) := by
  intro l
  induction l with
  | nil =>
    intro l' h n
    simp [parseAll] at h
    subst h
    simp [parseAll]
  | cons f fs ih =>
    intro l' h n
    obtain ⟨v, vs, hf, hfs, rfl⟩ := parseAll_cons_some h
    cases n with
    | zero => simp [parseAll]
    | succ m =>
      simp only [List.take_succ_cons]
      unfold parseAll
      rw [hf, ih hfs m]

theorem parseAll_isSome_iff : ∀ (l : List (List Char)),
    (parseAll l).isSome ↔ ∀ f ∈ l, (pyInt f).isSome := by
  intro l
  induction l with
  | nil => simp [parseAll]
  | cons f fs ih =>
    constructor
    · intro h g hg
      unfold parseAll at h
      cases hf : pyInt f <;> rw [hf] at h
      · simp at h
      · cases hfs : parseAll fs <;> rw [hfs] at h
        · simp at h
        · rcases List.mem_cons.mp hg with rfl | hg
          · simp [hf]
          · exact (ih.mp (by simp [hfs])) g hg
    · intro h
      have h1 := h f (by simp)
      have h2 : (parseAll fs).isSome := ih.mpr (fun g hg => h g (by simp [hg]))
      obtain ⟨v, hv⟩ := Option.isSome_iff_exists.mp h1
      obtain ⟨vs, hvs⟩ := Option.isSome_iff_exists.mp h2
      unfold parseAll
      rw [hv, hvs]
      simp

theorem exists_eq_cons3 {α : Type} (l : List α) (h : 3 ≤ l.length) :
    ∃ a b c t, l = a :: b :: c :: t := by
  rcases l with _ | ⟨a, _ | ⟨b, _ | ⟨c, t⟩⟩⟩
  · simp at h
  · simp at h
  · simp at h
  · exact ⟨a, b, c, t, rfl⟩

theorem exists_eq_four {α : Type} (l : List α) (h : l.length = 4) :
    ∃ a b c d, l = [a, b, c, d] := by
  rcases l with _ | ⟨a, _ | ⟨b, _ | ⟨c, _ | ⟨d, _ | ⟨e, t⟩⟩⟩⟩⟩ <;> simp_all

theorem exists_eq_five {α : Type} (l : List α) (h : l.length = 5) :
    ∃ a b c d e, l = [a, b, c, d, e] := by
  rcases l with _ | ⟨a, _ | ⟨b, _ | ⟨c, _ | ⟨d, _ | ⟨e, _ | ⟨f, t⟩⟩⟩⟩⟩⟩ <;> simp_all

theorem init_csv_of_initialized {s : LoggerState} (m : Mode)
    (h : s.csvInitialized = true) : init_csv m s = s := by
  simp [init_csv, h]

theorem commitMode_cases (m : Mode) (s : LoggerState) (h : s.csvInitialized = true) :
    commitMode m s = { s with mode := some m } ∨ commitMode m s = s := by
  unfold commitMode
  split
  · left
    exact init_csv_of_initialized m (by simp [h])
  · right
    rfl

theorem commitMode_mode (m : Mode) (s : LoggerState) : (commitMode m s).mode = some m := by
  unfold commitMode init_csv
  split
  · split <;> rfl
  · rename_i h
    simp only [ne_eq, not_not] at h
    rw [h]

theorem commitMode_rows (m : Mode) (s : LoggerState) : (commitMode m s).rows = s.rows := by
  unfold commitMode init_csv
  split
  · split <;> rfl
  · rfl

theorem commitMode_sampleCount (m : Mode) (s : LoggerState) :
    (commitMode m s).sampleCount = s.sampleCount := by
  unfold commitMode init_csv
  split
  · split <;> rfl
  · rfl

theorem commitMode_headerWrites_of_initialized (m : Mode) (s : LoggerState)
    (h : s.csvInitialized = true) : (commitMode m s).headerWrites = s.headerWrites := by
  rcases commitMode_cases m s h with hc | hc <;> rw [hc]

theorem commitMode_csvInitialized_of_initialized (m : Mode) (s : LoggerState)
    (h : s.csvInitialized = true) : (commitMode m s).csvInitialized = true := by
  rcases commitMode_cases m s h with hc | hc <;> rw [hc] <;> exact h

theorem write_sample_sampleCount (r : Row) (s : LoggerState) :
    (write_sample r s).sampleCount = s.sampleCount + 1 := by
  simp only [write_sample]
  split <;> rfl

theorem write_sample_rows (r : Row) (s : LoggerState) :
    (write_sample r s).rows = s.rows ++ [r] := by
  simp only [write_sample]
  split <;> rfl

theorem write_sample_headerWrites (r : Row) (s : LoggerState) :
    (write_sample r s).headerWrites = s.headerWrites := by
  simp only [write_sample]
  split <;> rfl

theorem write_sample_csvInitialized (r : Row) (s : LoggerState) :
    (write_sample r s).csvInitialized = s.csvInitialized := by
  simp only [write_sample]
  split <;> rfl

theorem write_sample_flushes (r : Row) (s : LoggerState) :
    (write_sample r s).flushes =
      s.flushes + (if (s.sampleCount + 1) % 500 = 0 then 1 else 0) := by
  simp only [write_sample]
  split <;> simp_all

theorem foldl_init_csv_initialized :
    ∀ (modes : List Mode) (s : LoggerState), s.csvInitialized = true →
      modes.foldl (fun st m => init_csv m st) s = s := by
  intro modes
  induction modes with
  | nil => intro s _; rfl
  | cons m rest ih =>
    intro s h
    simp only [List.foldl_cons]
    rw [init_csv_of_initialized m h, ih s h]

theorem appendAll_flushes :
    ∀ (rows : List Row) (s : LoggerState),
      (appendAll rows s).flushes =
        s.flushes + ((s.sampleCount + rows.length) / 500 - s.sampleCount / 500) := by
  intro rows
  induction rows with
  | nil => intro s; simp [appendAll]
  | cons r rest ih =>
    intro s
    have h1 : appendAll (r :: rest) s = appendAll rest (write_sample r s) := rfl
    rw [h1, ih (write_sample r s), write_sample_flushes, write_sample_sampleCount,
      List.length_cons]
    by_cases h : (s.sampleCount + 1) % 500 = 0
    · rw [if_pos h]
      omega
    · rw [if_neg h]
      omega

theorem acceptedTimes_cons (interval last now : Int) (rest : List Int) :
    acceptedTimes interval last (now :: rest) =
      if interval ≤ now - last then now :: acceptedTimes interval now rest
      else acceptedTimes interval last rest := by
  by_cases hc : interval ≤ now - last <;> simp [acceptedTimes, accelGateStep, hc]

theorem acceptedTimes_ge {interval : Int} (hI : 0 ≤ interval) :
    ∀ (ts : List Int) (last : Int), ∀ x ∈ acceptedTimes interval last ts,
      last + interval ≤ x := by
  intro ts
  induction ts with
  | nil => intro last x hx; simp [acceptedTimes] at hx
  | cons now rest ih =>
    intro last x hx
    rw [acceptedTimes_cons] at hx
    by_cases h : interval ≤ now - last
    · rw [if_pos h] at hx
      rcases List.mem_cons.mp hx with rfl | hx
      · omega
      · have := ih now x hx
        omega
    · rw [if_neg h] at hx
      exact ih last x hx

/- ------------------------------------------------------------------ -/
/- Claim theorems                                                      -/
/- ------------------------------------------------------------------ -/

/-- Claim C6: for any nonempty sequence of `init_csv` (ensureHeader) calls
starting from a session with an uninitialized CSV, the column header is
written exactly once (by the first call only); and every single
`write_sample` (append) call increments `sampleCount` by exactly 1. -/
theorem c6_header_once_append_inc (modes : List Mode) (s : LoggerState)
    (h0 : s.csvInitialized = false) (h1 : s.headerWrites = 0) (hne : modes ≠ []) :
    (modes.foldl (fun st m => init_csv m st) s).headerWrites = 1 ∧
    ∀ (r : Row) (s' : LoggerState), (write_sample r s').sampleCount = s'.sampleCount + 1 := by
  constructor
  · rcases modes with _ | ⟨m, rest⟩
    · exact absurd rfl hne
    · simp only [List.foldl_cons]
      have hinit : (init_csv m s).csvInitialized = true := by
        simp [init_csv, h0]
      rw [foldl_init_csv_initialized rest _ hinit]
      simp [init_csv, h0, h1]
  · intro r s'
    exact write_sample_sampleCount r s'

/-- Witness for C6 at a concrete input: one `init_csv` call from the fresh
session state writes the header exactly once. -/
theorem c6_header_once_append_inc_witness :
    freshState.csvInitialized = false ∧ freshState.headerWrites = 0 ∧
      ([Mode.reduced] : List Mode) ≠ [] ∧
      ((([Mode.reduced] : List Mode).foldl (fun st m => init_csv m st) freshState).headerWrites = 1 ∧
        ∀ (r : Row) (s' : LoggerState), (write_sample r s').sampleCount = s'.sampleCount + 1) :=
  ⟨rfl, rfl, by simp,
    c6_header_once_append_inc [Mode.reduced] freshState rfl rfl (by simp)⟩

/-- Claim C7: appending 501 consecutive decoded samples to a store whose
sample count starts at 0 forces the buffered-write flush exactly once
during the run (at count 500), and teardown (closing the CSV file) adds
exactly one more flush. -/
theorem c7_flush_once (rows : List Row) (s : LoggerState)
    (h0 : s.sampleCount = 0) (hlen : rows.length = 501) :
    (appendAll rows s).flushes = s.flushes + 1 ∧
    (closeStore (appendAll rows s)).flushes = s.flushes + 2 := by
  have h := appendAll_flushes rows s
  rw [h0, hlen] at h
  norm_num at h
  exact ⟨h, by simp only [closeStore, h]⟩

/-- Witness for C7 at a concrete input: 501 copies of one summary row
appended to the fresh store. -/
theorem c7_flush_once_witness :
    freshState.sampleCount = 0 ∧
      (List.replicate 501 (([1, 2, 3, 4, 5], "t") : Row)).length = 501 ∧
      ((appendAll (List.replicate 501 (([1, 2, 3, 4, 5], "t") : Row)) freshState).flushes =
          freshState.flushes + 1 ∧
        (closeStore (appendAll (List.replicate 501 (([1, 2, 3, 4, 5], "t") : Row))
            freshState)).flushes = freshState.flushes + 2) :=
  ⟨rfl, by rw [List.length_replicate],
    c7_flush_once (List.replicate 501 (([1, 2, 3, 4, 5], "t") : Row)) freshState rfl
      (by rw [List.length_replicate])⟩

/-- Claim C8: the time-based publish gate answers true iff
`now - lastEmitInstant ≥ interval`; it updates the last-emit instant to
`now` on a true answer and leaves it unchanged on a false answer; and over
any sequence of candidate instants, any two accepted emission instants are
at least `interval` apart (time is modelled by integer instants). -/
theorem c8_time_gate (interval now last last0 : Int) (ts : List Int)
    (hI : 0 ≤ interval) :
    ((accelGateStep interval now last).1 = true ↔ interval ≤ now - last) ∧
    ((accelGateStep interval now last).1 = true → (accelGateStep interval now last).2 = now) ∧
    ((accelGateStep interval now last).1 = false → (accelGateStep interval now last).2 = last) ∧
    (acceptedTimes interval last0 ts).Pairwise (fun a b => a + interval ≤ b) := by
  have pair : ∀ (ts' : List Int) (l0 : Int),
      (acceptedTimes interval l0 ts').Pairwise (fun a b => a + interval ≤ b) := by
    intro ts'
    induction ts' with
    | nil => intro l0; simp [acceptedTimes]
    | cons t rest ih =>
      intro l0
      rw [acceptedTimes_cons]
      by_cases h : interval ≤ t - l0
      · rw [if_pos h]
        exact List.Pairwise.cons (fun b hb => acceptedTimes_ge hI rest t b hb) (ih t)
      · rw [if_neg h]
        exact ih l0
  refine ⟨?_, ?_, ?_, pair ts last0⟩
  · by_cases h : interval ≤ now - last <;> simp [accelGateStep, h]
  · by_cases h : interval ≤ now - last <;> simp [accelGateStep, h]
  · by_cases h : interval ≤ now - last <;> simp [accelGateStep, h]

/-- Witness for C8 at a concrete input: interval 2, candidates
`[0, 1, 3, 4]` from last-emit 0. -/
theorem c8_time_gate_witness :
    (0 : Int) ≤ 2 ∧
      (((accelGateStep 2 5 0).1 = true ↔ (2 : Int) ≤ 5 - 0) ∧
        ((accelGateStep 2 5 0).1 = true → (accelGateStep 2 5 0).2 = 5) ∧
        ((accelGateStep 2 5 0).1 = false → (accelGateStep 2 5 0).2 = 0) ∧
        (acceptedTimes 2 0 [0, 1, 3, 4]).Pairwise (fun a b => a + 2 ≤ b)) :=
  ⟨by decide, c8_time_gate 2 5 0 0 [0, 1, 3, 4] (by decide)⟩

/-- Claim C9: the count-based decimation gate increments its sequence
counter on every candidate regardless of its answer, answers true iff the
counter value is a multiple of the decimation factor, and with factor 4 the
accepted candidates among those numbered 0..9 are exactly 0, 4 and 8. -/
theorem c9_count_gate (n c : Nat) :
    (micGateStep n c).2 = c + 1 ∧
    ((micGateStep n c).1 = true ↔ c % n = 0) ∧
    micAccepted 4 0 10 = [0, 4, 8] := by
  refine ⟨rfl, ?_, by decide⟩
  simp [micGateStep]

theorem process_line_result (ts : String) (line : List Char) (s : LoggerState) :
    process_line ts line s = s ∨ (∃ m, process_line ts line s = commitMode m s) ∨
      ∃ m r, process_line ts line s = write_sample r (commitMode m s) := by
  simp only [process_line]
  by_cases h1 : startsHash line = true
  · rw [if_pos h1]
    exact Or.inl rfl
  rw [if_neg h1]
  by_cases h2 : (splitComma line).length < 5
  · rw [if_pos h2]
    exact Or.inl rfl
  rw [if_neg h2]
  cases hx : pyInt ((splitComma line).getD 0 []) with
  | none => exact Or.inl rfl
  | some x =>
  cases hy : pyInt ((splitComma line).getD 1 []) with
  | none => exact Or.inl rfl
  | some y =>
  cases hz : pyInt ((splitComma line).getD 2 []) with
  | none => exact Or.inl rfl
  | some z =>
  dsimp only
  by_cases hm2 : ((splitComma line).drop 3).length = 2
  · rw [if_pos hm2]
    cases hp : pyInt (((splitComma line).drop 3).getD 0 []) with
    | none => exact Or.inr (Or.inl ⟨Mode.reduced, rfl⟩)
    | some peak =>
    cases ha : pyInt (((splitComma line).drop 3).getD 1 []) with
    | none => exact Or.inr (Or.inl ⟨Mode.reduced, rfl⟩)
    | some avg => exact Or.inr (Or.inr ⟨Mode.reduced, _, rfl⟩)
  · rw [if_neg hm2]
    by_cases hm8 : 8 ≤ ((splitComma line).drop 3).length
    · rw [if_pos hm8]
      cases hmm : parseAll (((splitComma line).drop 3).take 16) with
      | none => exact Or.inr (Or.inl ⟨Mode.raw, rfl⟩)
      | some mics => exact Or.inr (Or.inr ⟨Mode.raw, _, rfl⟩)
    · rw [if_neg hm8]
      exact Or.inl rfl

theorem process_line_decode_none (ts : String) (line : List Char) (s : LoggerState)
    (hd : untaggedDecode line = none) :
    process_line ts line s = s ∨ ∃ m, process_line ts line s = commitMode m s := by
  simp only [process_line]
  simp only [untaggedDecode] at hd
  by_cases h1 : startsHash line = true
  · rw [if_pos h1]
    exact Or.inl rfl
  rw [if_neg h1]
  rw [if_neg h1] at hd
  by_cases h2 : (splitComma line).length < 5
  · rw [if_pos h2]
    exact Or.inl rfl
  rw [if_neg h2]
  rw [if_neg h2] at hd
  cases hx : pyInt ((splitComma line).getD 0 []) with
  | none => exact Or.inl rfl
  | some x =>
  cases hy : pyInt ((splitComma line).getD 1 []) with
  | none => exact Or.inl rfl
  | some y =>
  cases hz : pyInt ((splitComma line).getD 2 []) with
  | none => exact Or.inl rfl
  | some z =>
  dsimp only
  rw [hx, hy, hz] at hd
  dsimp only at hd
  by_cases hm2 : ((splitComma line).drop 3).length = 2
  · rw [if_pos hm2]
    rw [if_pos hm2] at hd
    cases hp : pyInt (((splitComma line).drop 3).getD 0 []) with
    | none => exact Or.inr ⟨Mode.reduced, rfl⟩
    | some peak =>
    cases ha : pyInt (((splitComma line).drop 3).getD 1 []) with
    | none => exact Or.inr ⟨Mode.reduced, rfl⟩
    | some avg =>
      rw [hp, ha] at hd
      simp at hd
  · rw [if_neg hm2]
    rw [if_neg hm2] at hd
    by_cases hm8 : 8 ≤ ((splitComma line).drop 3).length
    · rw [if_pos hm8]
      rw [if_pos hm8] at hd
      cases hmm : parseAll (((splitComma line).drop 3).take 16) with
      | none => exact Or.inr ⟨Mode.raw, rfl⟩
      | some mics =>
        rw [hmm] at hd
        simp at hd
    · rw [if_neg hm8]
      exact Or.inl rfl

/-- Claim C1 counterexample: in one session the logger first commits to
the reduced (Summary) schema on `"1,2,3,4,5"`, then the wide-shaped line
`"1,2,3,1,2,3,4,5,6,7,8"` is *not* dropped: the committed schema switches
to raw and the frame is written as a second sample. -/
theorem c1_schema_switch_counterexample :
    (process_line "t1" ("1,2,3,4,5".data) freshState).mode = some Mode.reduced ∧
    (process_line "t2" ("1,2,3,1,2,3,4,5,6,7,8".data)
        (process_line "t1" ("1,2,3,4,5".data) freshState)).mode = some Mode.raw ∧
    (process_line "t2" ("1,2,3,1,2,3,4,5,6,7,8".data)
        (process_line "t1" ("1,2,3,4,5".data) freshState)).sampleCount = 2 := by
  exact ⟨by decide, by decide, by decide⟩

/-- Claim C1 (amended): the one-way latch is the CSV header, not the
schema.  Once the header is initialized, no later line ever rewrites it
and the initialization flag stays set; but the committed mode is not
latched — `commitMode` re-commits the mode to the shape of whatever frame
arrives, and concretely a wide-shaped line after a Summary commitment
switches the schema to raw and is written as a sample rather than
dropped. -/
theorem c1_header_latch_not_schema (ts : String) (line : List Char) (s : LoggerState)
    (m : Mode) (h : s.csvInitialized = true) :
    ((process_line ts line s).headerWrites = s.headerWrites ∧
      (process_line ts line s).csvInitialized = true) ∧
    (commitMode m s).mode = some m ∧
    ((process_line "t2" ("1,2,3,1,2,3,4,5,6,7,8".data)
        (process_line "t1" ("1,2,3,4,5".data) freshState)).mode = some Mode.raw ∧
      (process_line "t2" ("1,2,3,1,2,3,4,5,6,7,8".data)
        (process_line "t1" ("1,2,3,4,5".data) freshState)).sampleCount = 2) := by
  refine ⟨?_, commitMode_mode m s, by decide, by decide⟩
  rcases process_line_result ts line s with hr | ⟨m', hr⟩ | ⟨m', r, hr⟩ <;> rw [hr]
  · exact ⟨rfl, h⟩
  · exact ⟨commitMode_headerWrites_of_initialized m' s h,
      commitMode_csvInitialized_of_initialized m' s h⟩
  · rw [write_sample_headerWrites, write_sample_csvInitialized]
    exact ⟨commitMode_headerWrites_of_initialized m' s h,
      commitMode_csvInitialized_of_initialized m' s h⟩

/-- Witness for the amended C1 at a concrete input: a session state whose
header is already initialized (after the first Summary line). -/
theorem c1_header_latch_not_schema_witness :
    (process_line "t1" ("1,2,3,4,5".data) freshState).csvInitialized = true ∧
      (((process_line "t2" ("1,2,3,1,2,3,4,5,6,7,8".data)
            (process_line "t1" ("1,2,3,4,5".data) freshState)).headerWrites =
          (process_line "t1" ("1,2,3,4,5".data) freshState).headerWrites ∧
        (process_line "t2" ("1,2,3,1,2,3,4,5,6,7,8".data)
            (process_line "t1" ("1,2,3,4,5".data) freshState)).csvInitialized = true) ∧
      (commitMode Mode.raw (process_line "t1" ("1,2,3,4,5".data) freshState)).mode =
        some Mode.raw ∧
      ((process_line "t2" ("1,2,3,1,2,3,4,5,6,7,8".data)
          (process_line "t1" ("1,2,3,4,5".data) freshState)).mode = some Mode.raw ∧
        (process_line "t2" ("1,2,3,1,2,3,4,5,6,7,8".data)
          (process_line "t1" ("1,2,3,4,5".data) freshState)).sampleCount = 2)) :=
  ⟨by decide,
    c1_header_latch_not_schema "t2" ("1,2,3,1,2,3,4,5,6,7,8".data)
      (process_line "t1" ("1,2,3,4,5".data) freshState) Mode.raw (by decide)⟩

/-- Claim C3 counterexample: on the malformed line `"1,2,3,a,b"` (trailing
fields fail integer parsing) from the fresh session, no row is written and
the sample count stays 0 — but the session state does change: the mode
commits to reduced and the CSV header is initialized, contradicting the
claim that no schema/mode or header state changes. -/
theorem c3_malformed_commits_counterexample :
    (process_line "t" ("1,2,3,a,b".data) freshState).mode = some Mode.reduced ∧
    (process_line "t" ("1,2,3,a,b".data) freshState).headerWrites = 1 ∧
    (process_line "t" ("1,2,3,a,b".data) freshState).csvInitialized = true ∧
    (process_line "t" ("1,2,3,a,b".data) freshState).rows = [] ∧
    (process_line "t" ("1,2,3,a,b".data) freshState).sampleCount = 0 := by
  exact ⟨by decide, by decide, by decide, by decide, by decide⟩

/-- Claim C3 (amended): a candidate line that fails to decode (in
particular, any line with an examined field that fails integer parsing)
never writes a data row and never changes the sample count — partial
frames are never emitted; in the tagged gateway such a line increments the
error counter and changes nothing else.  However, in the untagged logger
the mode commitment and header initialization may still occur before the
parse failure is detected (see the counterexample), and the untagged
logger keeps no error counter. -/
theorem c3_parse_failure_no_row (ts : String) (line : List Char) (s : LoggerState)
    (interval : Int) (n : Nat) (now : Int) (lineA lineM : List Char) (st : GatewayState)
    (hd : untaggedDecode line = none)
    (hA0 : (splitComma lineA).getD 0 [] = ['A'])
    (hA4 : (splitComma lineA).length = 4)
    (hAf : pyInt ((splitComma lineA).getD 1 []) = none ∨
      pyInt ((splitComma lineA).getD 2 []) = none ∨
      pyInt ((splitComma lineA).getD 3 []) = none)
    (hM0 : (splitComma lineM).getD 0 [] = ['M'])
    (hM1 : 1 < (splitComma lineM).length)
    (hMf : parseAll ((splitComma lineM).drop 1) = none) :
    (process_line ts line s).rows = s.rows ∧
    (process_line ts line s).sampleCount = s.sampleCount ∧
    gatewayStep interval n now lineA st = { st with statErrors := st.statErrors + 1 } ∧
    gatewayStep interval n now lineM st = { st with statErrors := st.statErrors + 1 } := by
  refine ⟨?_, ?_, ?_, ?_⟩
  · rcases process_line_decode_none ts line s hd with hr | ⟨m, hr⟩ <;> rw [hr]
    exact commitMode_rows m s
  · rcases process_line_decode_none ts line s hd with hr | ⟨m, hr⟩ <;> rw [hr]
    exact commitMode_sampleCount m s
  · simp only [gatewayStep]
    rw [if_pos ⟨hA0, hA4⟩]
    rcases hAf with hf | hf | hf <;>
      cases h1 : pyInt ((splitComma lineA).getD 1 []) <;>
        cases h2 : pyInt ((splitComma lineA).getD 2 []) <;>
          cases h3 : pyInt ((splitComma lineA).getD 3 []) <;>
            simp_all
  · simp only [gatewayStep]
    rw [if_neg (by rw [hM0]; simp), if_pos ⟨hM0, hM1⟩, hMf]

/-- Witness for the amended C3 at concrete inputs: the untagged line
`"1,2,3,a,b"`, the tagged lines `"A,1,x,3"` and `"M,1,y"`. -/
theorem c3_parse_failure_no_row_witness :
    untaggedDecode ("1,2,3,a,b".data) = none ∧
      (splitComma ("A,1,x,3".data)).getD 0 [] = ['A'] ∧
      (splitComma ("A,1,x,3".data)).length = 4 ∧
      (pyInt ((splitComma ("A,1,x,3".data)).getD 1 []) = none ∨
        pyInt ((splitComma ("A,1,x,3".data)).getD 2 []) = none ∨
        pyInt ((splitComma ("A,1,x,3".data)).getD 3 []) = none) ∧
      (splitComma ("M,1,y".data)).getD 0 [] = ['M'] ∧
      1 < (splitComma ("M,1,y".data)).length ∧
      parseAll ((splitComma ("M,1,y".data)).drop 1) = none ∧
      ((process_line "t" ("1,2,3,a,b".data) freshState).rows = freshState.rows ∧
        (process_line "t" ("1,2,3,a,b".data) freshState).sampleCount =
          freshState.sampleCount ∧
        gatewayStep 1 1 5 ("A,1,x,3".data) freshGateway =
          { freshGateway with statErrors := freshGateway.statErrors + 1 } ∧
        gatewayStep 1 1 5 ("M,1,y".data) freshGateway =
          { freshGateway with statErrors := freshGateway.statErrors + 1 }) :=
  ⟨by decide, by decide, by decide, by decide, by decide, by decide, by decide,
    c3_parse_failure_no_row "t" ("1,2,3,a,b".data) freshState 1 1 5
      ("A,1,x,3".data) ("M,1,y".data) freshGateway (by decide) (by decide) (by decide)
      (by decide) (by decide) (by decide) (by decide)⟩

/-- Claim C2 counterexample: the untagged line `"1,2,3"` has exactly 3
comma-separated fields, all integers, yet `decode` yields no frame (the
logger's `len(parts) < 5` guard drops it), and `process_line` leaves the
session state completely unchanged — it does not return an `AxisSample`. -/
theorem c2_bare_triple_counterexample :
    untaggedDecode ("1,2,3".data) = none ∧
    process_line "t" ("1,2,3".data) freshState = freshState := by
  exact ⟨by decide, by decide⟩

/-- Claim C2 (amended): an untagged line of exactly 3 comma-separated
fields — integers or not — yields no frame and is dropped with the session
state unchanged: the untagged logger requires at least 5 fields, so bare
integer triples are never decoded as `AxisSample`. -/
theorem c2_bare_triple_dropped (ts : String) (line : List Char) (s : LoggerState)
    (h3 : (splitComma line).length = 3) :
    untaggedDecode line = none ∧ process_line ts line s = s := by
  constructor
  · unfold untaggedDecode
    by_cases h1 : startsHash line
    · simp [h1]
    · simp [h1, h3]
  · unfold process_line
    by_cases h1 : startsHash line
    · simp [h1]
    · simp [h1, h3]

/-- Witness for the amended C2 at a concrete input: the line `"1,2,3"`. -/
theorem c2_bare_triple_dropped_witness :
    (splitComma ("1,2,3".data)).length = 3 ∧
      (untaggedDecode ("1,2,3".data) = none ∧
        process_line "t" ("1,2,3".data) freshState = freshState) :=
  ⟨by decide, c2_bare_triple_dropped "t" ("1,2,3".data) freshState (by decide)⟩

/-- Claim C4: for untagged non-comment lines all of whose comma-separated
fields parse as integers (`parseAll` succeeds on the split): with exactly
5 fields, `decode` returns `SummarySample x y z peak avg` taken in field
order; with `k` fields where `k - 3 ≥ 8`, `decode` returns `WideSample`
whose channel sequence is the first `min (k-3) 16` auxiliary values
zero-padded up to the declared channel width of 16. -/
theorem c4_untagged_summary_wide (lineS lineW : List Char) (valsS valsW : List Int)
    (hS1 : startsHash lineS = false)
    (hS2 : parseAll (splitComma lineS) = some valsS)
    (hS3 : valsS.length = 5)
    (hW1 : startsHash lineW = false)
    (hW2 : parseAll (splitComma lineW) = some valsW)
    (hW3 : 8 ≤ valsW.length - 3) :
    untaggedDecode lineS =
      some (Frame.summary (valsS.getD 0 0) (valsS.getD 1 0) (valsS.getD 2 0)
        (valsS.getD 3 0) (valsS.getD 4 0)) ∧
    untaggedDecode lineW =
      some (Frame.wide (valsW.getD 0 0) (valsW.getD 1 0) (valsW.getD 2 0)
        (pad16 ((valsW.drop 3).take 16))) := by
  constructor
  · have hplen : (splitComma lineS).length = 5 := by
      rw [← parseAll_length hS2, hS3]
    obtain ⟨p0, p1, p2, p3, p4, hps⟩ := exists_eq_five (splitComma lineS) hplen
    rw [hps] at hS2
    obtain ⟨v0, vs0, hv0, hS2a, rfl⟩ := parseAll_cons_some hS2
    obtain ⟨v1, vs1, hv1, hS2b, rfl⟩ := parseAll_cons_some hS2a
    obtain ⟨v2, vs2, hv2, hS2c, rfl⟩ := parseAll_cons_some hS2b
    obtain ⟨v3, vs3, hv3, hS2d, rfl⟩ := parseAll_cons_some hS2c
    obtain ⟨v4, vs4, hv4, hS2e, rfl⟩ := parseAll_cons_some hS2d
    have hnil : vs4 = [] := by
      have hl := parseAll_length hS2e
      simpa using List.length_eq_zero.mp (by simpa using hl)
    subst hnil
    simp [untaggedDecode, hps, hS1, hv0, hv1, hv2, hv3, hv4]
  · have hwlen : valsW.length = (splitComma lineW).length := parseAll_length hW2
    have h3le : 3 ≤ (splitComma lineW).length := by omega
    obtain ⟨p0, p1, p2, rest, hps⟩ := exists_eq_cons3 (splitComma lineW) h3le
    rw [hps] at hW2
    have hrl : (splitComma lineW).length = rest.length + 3 := by
      rw [hps]
      simp only [List.length_cons]
    obtain ⟨v0, vs0, hv0, hW2a, rfl⟩ := parseAll_cons_some hW2
    obtain ⟨v1, vs1, hv1, hW2b, rfl⟩ := parseAll_cons_some hW2a
    obtain ⟨v2, vrest, hv2, hWr, rfl⟩ := parseAll_cons_some hW2b
    have h8 : 8 ≤ rest.length := by omega
    have hne2 : ¬ rest.length = 2 := by omega
    have hnl : ¬ ((p0 :: p1 :: p2 :: rest : List (List Char)).length < 5) := by
      simp
      omega
    have htake : parseAll (rest.take 16) = some (vrest.take 16) := parseAll_take hWr 16
    simp [untaggedDecode, hps, hW1, hnl, hv0, hv1, hv2, hne2, h8, htake]
    omega

/-- Witness for C4 at concrete inputs: the summary line `"100,200,300,5,9"`
and the wide line `"1,2,3,10,20,30,40,50,60,70,80"` (8 auxiliary
channels, zero-padded to 16). -/
theorem c4_untagged_summary_wide_witness :
    startsHash ("100,200,300,5,9".data) = false ∧
      parseAll (splitComma ("100,200,300,5,9".data)) = some [100, 200, 300, 5, 9] ∧
      ([100, 200, 300, 5, 9] : List Int).length = 5 ∧
      startsHash ("1,2,3,10,20,30,40,50,60,70,80".data) = false ∧
      parseAll (splitComma ("1,2,3,10,20,30,40,50,60,70,80".data)) =
        some [1, 2, 3, 10, 20, 30, 40, 50, 60, 70, 80] ∧
      8 ≤ ([1, 2, 3, 10, 20, 30, 40, 50, 60, 70, 80] : List Int).length - 3 ∧
      (untaggedDecode ("100,200,300,5,9".data) =
          some (Frame.summary (([100, 200, 300, 5, 9] : List Int).getD 0 0)
            (([100, 200, 300, 5, 9] : List Int).getD 1 0)
            (([100, 200, 300, 5, 9] : List Int).getD 2 0)
            (([100, 200, 300, 5, 9] : List Int).getD 3 0)
            (([100, 200, 300, 5, 9] : List Int).getD 4 0)) ∧
        untaggedDecode ("1,2,3,10,20,30,40,50,60,70,80".data) =
          some (Frame.wide (([1, 2, 3, 10, 20, 30, 40, 50, 60, 70, 80] : List Int).getD 0 0)
            (([1, 2, 3, 10, 20, 30, 40, 50, 60, 70, 80] : List Int).getD 1 0)
            (([1, 2, 3, 10, 20, 30, 40, 50, 60, 70, 80] : List Int).getD 2 0)
            (pad16 ((([1, 2, 3, 10, 20, 30, 40, 50, 60, 70, 80] : List Int).drop 3).take 16)))) :=
  ⟨by decide, by decide, by decide, by decide, by decide, by decide,
    c4_untagged_summary_wide ("100,200,300,5,9".data)
      ("1,2,3,10,20,30,40,50,60,70,80".data)
      [100, 200, 300, 5, 9] [1, 2, 3, 10, 20, 30, 40, 50, 60, 70, 80]
      (by decide) (by decide) (by decide) (by decide) (by decide) (by decide)⟩

/-- Claim C5: tagged-protocol decoding dispatches on the leading tag alone,
independent of arity heuristics: a line whose first field is `'A'` decodes
as an `AxisSample` iff it has exactly 3 trailing fields that all parse as
integers, and a line whose first field is `'M'` decodes as a `WideSample`
(mic batch) iff it has at least one trailing field and all trailing fields
parse as integers — with no fixed minimum count. -/
theorem c5_tagged_dispatch (lineA lineM : List Char)
    (hA : (splitComma lineA).getD 0 [] = ['A'])
    (hM : (splitComma lineM).getD 0 [] = ['M']) :
    ((∃ x y z, taggedDecode lineA = some (Frame.axis x y z)) ↔
      ((splitComma lineA).length = 4 ∧
        ∀ p ∈ (splitComma lineA).drop 1, (pyInt p).isSome)) ∧
    ((∃ vs, taggedDecode lineM = some (Frame.micBatch vs)) ↔
      (2 ≤ (splitComma lineM).length ∧
        ∀ p ∈ (splitComma lineM).drop 1, (pyInt p).isSome)) := by
  constructor
  · by_cases hlen : (splitComma lineA).length = 4
    · obtain ⟨a, b, c, d, hps⟩ := exists_eq_four (splitComma lineA) hlen
      rw [hps] at hA
      simp at hA
      subst hA
      simp only [taggedDecode, hps]
      cases hb : pyInt b <;> cases hc : pyInt c <;> cases hd : pyInt d <;>
        simp [hb, hc, hd]
    · simp only [taggedDecode]
      rw [if_neg (fun hc => hlen hc.2), if_neg (by rw [hA]; simp)]
      simp [hlen]
  · by_cases hlen : 1 < (splitComma lineM).length
    · simp only [taggedDecode]
      rw [if_neg (by rw [hM]; simp), if_pos ⟨hM, hlen⟩]
      cases hp : parseAll ((splitComma lineM).drop 1) with
      | some vs =>
        constructor
        · intro _
          refine ⟨by omega, fun p hp' => ?_⟩
          exact (parseAll_isSome_iff ((splitComma lineM).drop 1)).mp (by rw [hp]; rfl) p hp'
        · intro _
          exact ⟨vs, rfl⟩
      | none =>
        constructor
        · rintro ⟨vs, hvs⟩
          simp at hvs
        · rintro ⟨-, hall⟩
          have hs : (parseAll ((splitComma lineM).drop 1)).isSome :=
            (parseAll_isSome_iff ((splitComma lineM).drop 1)).mpr hall
          rw [hp] at hs
          simp at hs
    · simp only [taggedDecode]
      rw [if_neg (by rw [hM]; simp), if_neg (fun hc => hlen hc.2)]
      constructor
      · rintro ⟨vs, hvs⟩
        simp at hvs
      · rintro ⟨h2, -⟩
        exact absurd (by omega) hlen

/-- Witness for C5 at concrete inputs: the lines `"A,1,2,3"` and `"M,7"`. -/
theorem c5_tagged_dispatch_witness :
    (splitComma ("A,1,2,3".data)).getD 0 [] = ['A'] ∧
      (splitComma ("M,7".data)).getD 0 [] = ['M'] ∧
      (((∃ x y z, taggedDecode ("A,1,2,3".data) = some (Frame.axis x y z)) ↔
          ((splitComma ("A,1,2,3".data)).length = 4 ∧
            ∀ p ∈ (splitComma ("A,1,2,3".data)).drop 1, (pyInt p).isSome)) ∧
        ((∃ vs, taggedDecode ("M,7".data) = some (Frame.micBatch vs)) ↔
          (2 ≤ (splitComma ("M,7".data)).length ∧
            ∀ p ∈ (splitComma ("M,7".data)).drop 1, (pyInt p).isSome))) :=
  ⟨by decide, by decide,
    c5_tagged_dispatch ("A,1,2,3".data) ("M,7".data) (by decide) (by decide)⟩

/-- Claim C10: an untagged non-comment line whose field count is 4, or
between 6 and 10 inclusive (auxiliary count 1 or 3..7), yields no frame
and `process_line` returns the state unchanged: no row, no mode or header
commitment, no counter change — the arity gap between the Summary shape
and the Wide shape is absorbed silently. -/
theorem c10_arity_gap (ts : String) (line : List Char) (s : LoggerState)
    (h1 : startsHash line = false)
    (hk : (splitComma line).length = 4 ∨
      (6 ≤ (splitComma line).length ∧ (splitComma line).length ≤ 10)) :
    untaggedDecode line = none ∧ process_line ts line s = s := by
  rcases hk with hk | hk
  · constructor
    · unfold untaggedDecode
      simp [h1, hk]
    · unfold process_line
      simp [h1, hk]
  · have hge : ¬ (splitComma line).length < 5 := by omega
    have hne2 : ¬ ((splitComma line).length - 3 = 2) := by omega
    have hlt8 : ¬ (8 ≤ (splitComma line).length - 3) := by omega
    constructor
    · unfold untaggedDecode
      rw [if_neg (by simp [h1])]
      simp only [if_neg hge]
      cases hx : pyInt ((splitComma line).getD 0 []) <;>
        cases hy : pyInt ((splitComma line).getD 1 []) <;>
          cases hz : pyInt ((splitComma line).getD 2 []) <;>
            simp [hne2, hlt8]
    · unfold process_line
      rw [if_neg (by simp [h1])]
      simp only [if_neg hge]
      cases hx : pyInt ((splitComma line).getD 0 []) <;>
        cases hy : pyInt ((splitComma line).getD 1 []) <;>
          cases hz : pyInt ((splitComma line).getD 2 []) <;>
            simp [hne2, hlt8]

/-- Witness for C10 at concrete inputs: the 4-field line `"1,2,3,4"`. -/
theorem c10_arity_gap_witness :
    startsHash ("1,2,3,4".data) = false ∧
      ((splitComma ("1,2,3,4".data)).length = 4 ∨
        (6 ≤ (splitComma ("1,2,3,4".data)).length ∧
          (splitComma ("1,2,3,4".data)).length ≤ 10)) ∧
      (untaggedDecode ("1,2,3,4".data) = none ∧
        process_line "t" ("1,2,3,4".data) freshState = freshState) :=
  ⟨by decide, by decide,
    c10_arity_gap "t" ("1,2,3,4".data) freshState (by decide) (by decide)⟩

end Sensortile
